import Mathlib

/-!
Shallow embedding of the market-making quoting engine of the vaults backend
(class `MarketMaker` in the notebook embedded in `src/vaults-backend/README.md`).
Python `float` / `Decimal` arithmetic is modelled over `ℝ`; `np.tanh` is
`Real.tanh`, `np.sqrt` is `Real.sqrt`.  Python `round(x, 2)` is modelled as
rounding `100*x` to the nearest integer (Python uses ties-to-even, which no
claim here exercises).  Fallible code (list indexing that can raise) returns
`Except`.
-/

namespace NovaAlgo

/-- A side of the synthetic order book: list of (price, size) levels. -/
structure OrderBook where
  bids : List (ℝ × ℝ)
  asks : List (ℝ × ℝ)

/-- The `MarketMakerConfig` fields read by the quoting engine. -/
structure MMConfig where
  inventory_target : ℝ
  max_position_size : ℝ
  base_spread : ℝ
  min_order_size : ℝ
  max_order_size : ℝ
  order_size : ℝ
  volatility_value : ℝ

/-- Order direction (`PositionDirection.Long` / `PositionDirection.Short`). -/
inductive Direction where
  | long
  | short
deriving DecidableEq, Repr

/-- `OrderType.Limit()` / `OrderType.Market()`. -/
inductive OrderKind where
  | limit
  | market
deriving DecidableEq, Repr

/-- The `OrderParams` fields set by the market maker when placing orders. -/
structure OrderParams where
  kind : OrderKind
  direction : Direction
  baseAssetAmount : ℤ
  price : ℤ
  reduceOnly : Bool

/-- The mutable fields of the `MarketMaker` instance (its `__init__` state). -/
structure MMState where
  config : MMConfig
  position_size : ℝ
  last_trade_price : Option ℝ
  vwap : Option ℝ
  order_book : OrderBook
  inventory_extreme : ℝ
  max_orders : ℕ
  volatility : ℝ
  volatility_window : ℕ
  price_history : List ℝ
  health_check_interval : ℤ
  last_health_check : ℤ
  is_healthy : Bool
  is_running : Bool
  current_orders : List (ℕ × OrderParams)

/-- Total size resting on a list of book levels: `sum(level[1] for level in levels)`. -/
def bookVolume (levels : List (ℝ × ℝ)) : ℝ :=
  (levels.map Prod.snd).sum

/-- Python `round(x, 2)`: round to two decimal places. -/
noncomputable def round2 (x : ℝ) : ℝ :=
  (round (x * 100) : ℤ) / 100

/-- `MarketMaker._generate_skew`: blend price-trend, inventory and book-imbalance
signals into a raw skew; neutral `0` when the last trade price or the VWAP is
missing. -/
noncomputable def generateSkew (s : MMState) : ℝ :=
  match s.last_trade_price, s.vwap with
  | some last_price, some vwap =>
    let price_trend := (last_price - vwap) / vwap
    let price_skew := Real.tanh (price_trend * 10)
    let inventory_diff := s.position_size - s.config.inventory_target
    let max_inventory := s.config.max_position_size
    let inventory_skew := -Real.tanh (inventory_diff / (max_inventory / 2))
    let bid_volume := bookVolume s.order_book.bids
    let ask_volume := bookVolume s.order_book.asks
    let book_skew :=
      if 0 < bid_volume + ask_volume then
        Real.tanh ((bid_volume - ask_volume) / (bid_volume + ask_volume) * 2)
      else 0
    0.3 * price_skew + 0.5 * inventory_skew + 0.2 * book_skew
  | _, _ => 0

/-- `inventory_delta = self.position_size - self.config.inventory_target`. -/
def skewDelta (s : MMState) : ℝ :=
  s.position_size - s.config.inventory_target

/-- The `(bid_skew, ask_skew)` pair computed by `MarketMaker._skew` just before
its degenerate-case guard: clamp the rounded raw skew per side, add the
inventory delta on the side it pushes, then force a side to `1` when the delta
passes `inventory_extreme`. -/
noncomputable def skewBeforeDegenerate (s : MMState) : ℝ × ℝ :=
  let skew := round2 (generateSkew s)
  let bid0 : ℝ := max 0 (min skew 1)
  let ask0 : ℝ := max 0 (min (-skew) 1)
  let d := skewDelta s
  let bid1 := bid0 + (if d < 0 then d else 0)
  let ask1 := ask0 - (if 0 < d then d else 0)
  let bid2 := if -s.inventory_extreme < d then bid1 else 1
  let ask2 := if d < s.inventory_extreme then ask1 else 1
  (bid2, ask2)

/-- `MarketMaker._skew`: the degenerate guard returns `(0, 0)` when a side
equals `1` while the inventory delta is `0`; otherwise the absolute values of
the two sides are returned. -/
noncomputable def skewPair (s : MMState) : ℝ × ℝ :=
  let p := skewBeforeDegenerate s
  if (p.1 = 1 ∨ p.2 = 1) ∧ skewDelta s = 0 then (0, 0)
  else (|p.1|, |p.2|)

/-- Size resting on the top five levels of a book side:
`sum(level[1] for level in levels[:5])`. -/
def top5Volume (levels : List (ℝ × ℝ)) : ℝ :=
  ((levels.take 5).map Prod.snd).sum

/-- The market-depth adjustment of `MarketMaker._adjusted_spread`: widen the
spread for low liquidity using the average top-5 volume, with a fixed `1.5`
fallback when a side of the book is empty. -/
noncomputable def depthFactor (s : MMState) : ℝ :=
  if s.order_book.bids ≠ [] ∧ s.order_book.asks ≠ [] then
    let bid_volume := top5Volume s.order_book.bids
    let ask_volume := top5Volume s.order_book.asks
    let avg_volume := (bid_volume + ask_volume) / 2
    1 + 100 / (avg_volume + 1)
  else 1.5

/-- The time-of-day adjustment of `MarketMaker._adjusted_spread`, keyed on the
local clock hour. -/
noncomputable def timeFactor (hour : ℕ) : ℝ :=
  if hour = 14 ∨ hour = 15 ∨ hour = 16 then 1.2
  else if hour = 21 ∨ hour = 22 then 1.1
  else 1

/-- `MarketMaker._adjusted_spread`: combine volatility, inventory, depth and
time factors, then clamp to `[base_spread/2, base_spread*5]`.  The wall-clock
hour read by the source via `time.localtime()` is passed explicitly. -/
noncomputable def adjustedSpread (s : MMState) (hour : ℕ) : ℝ :=
  let base_spread := s.config.base_spread
  let volatility_factor := 1 + s.volatility / 0.01
  let inventory_diff := |s.position_size - s.config.inventory_target|
  let max_inventory := s.config.max_position_size
  let inventory_factor := 1 + inventory_diff / max_inventory * 0.5
  let adjusted := base_spread * volatility_factor * inventory_factor *
    depthFactor s * timeFactor hour
  let min_spread := s.config.base_spread / 2
  let max_spread := s.config.base_spread * 5
  max min_spread (min adjusted max_spread)

/-- The per-step returns of `MarketMaker.update_volatility`:
`[price / history[i-1] - 1 for i, price in enumerate(history) if i > 0]`. -/
noncomputable def returnsOf (l : List ℝ) : List ℝ :=
  List.zipWith (fun prev cur => cur / prev - 1) l l.tail

/-- `np.std` (population standard deviation, `ddof = 0`) of a list. -/
noncomputable def npStd (l : List ℝ) : ℝ :=
  let m := l.sum / l.length
  Real.sqrt (((l.map fun x => (x - m) ^ 2).sum) / l.length)

/-- `MarketMaker.update_volatility`: append the last trade price to the rolling
history, evict the oldest entry past `volatility_window`, and with at least two
samples recompute `volatility = np.std(returns) * np.sqrt(len(returns))`. -/
noncomputable def updateVolatility (s : MMState) : MMState :=
  match s.last_trade_price with
  | none => s
  | some p =>
    let h1 := s.price_history ++ [p]
    let h2 := if s.volatility_window < h1.length then h1.tail else h1
    if 2 ≤ h2.length then
      { s with price_history := h2
               volatility := npStd (returnsOf h2) * Real.sqrt ((returnsOf h2).length) }
    else { s with price_history := h2 }

/-- Observe one trade price: the control loop stores the last trade price and
then runs `update_volatility`. -/
noncomputable def feedPrice (s : MMState) (p : ℝ) : MMState :=
  updateVolatility { s with last_trade_price := some p }

/-- `MarketMaker.manage_inventory`: when the position deviates from the target
by more than `order_size`, produce one market order (direction, size) that
reduces the deviation; otherwise no order. -/
noncomputable def manageInventory (s : MMState) : Option (Direction × ℝ) :=
  if s.config.order_size < |s.position_size - s.config.inventory_target| then
    let direction :=
      if s.config.inventory_target < s.position_size then Direction.short
      else Direction.long
    let size := min |s.position_size - s.config.inventory_target|
      (s.config.max_position_size - |s.position_size|)
    some (direction, size)
  else none

/-- Position after a full fill of a market order of the given direction and
size (a sell reduces the signed position, a buy increases it). -/
noncomputable def fillPosition (pos : ℝ) (d : Direction) (size : ℝ) : ℝ :=
  match d with
  | Direction.short => pos - size
  | Direction.long => pos + size

/-- `np.linspace(a, b, n)`: `n` evenly spaced points from `a` to `b`
inclusive. -/
noncomputable def linspace (a b : ℝ) (n : ℕ) : List ℝ :=
  (List.range n).map fun i : ℕ => a + (b - a) * (i : ℝ) / ((n : ℝ) - 1)

/-- `np.geomspace(a, b, n)`: `n` points spaced geometrically from `a` to `b`
(real-power form, the code only feeds it positive endpoints). -/
noncomputable def geomspace (a b : ℝ) (n : ℕ) : List ℝ :=
  (List.range n).map fun i : ℕ => a * (b / a) ^ ((i : ℝ) / ((n : ℝ) - 1))

/-- `MarketMaker._prices`: bid/ask price ladders from the skew pair.  The
source first reads the head of each book side (index 0 of the bids and the
asks), which raises `IndexError` on an empty side; that raise is modelled as
`Except.error`.  A forced side (`skew >= 1`, bid checked first) produces a
one-sided `linspace` ladder; otherwise best bid/ask are re-centered by the
dominant skew and both sides get `geomspace` ladders. -/
noncomputable def pricesFn (s : MMState) (bid_skew ask_skew : ℝ) (hour : ℕ) :
    Except String (Option (List ℝ) × Option (List ℝ)) :=
  match s.order_book.bids, s.order_book.asks with
  | b0 :: _, a0 :: _ =>
    let best_bid := b0.1
    let best_ask := a0.1
    let spread := adjustedSpread s hour
    if 1 ≤ bid_skew then
      let bid_lower := best_bid - spread * s.max_orders
      Except.ok (some (linspace best_bid bid_lower s.max_orders), none)
    else if 1 ≤ ask_skew then
      let ask_upper := best_ask + spread * s.max_orders
      Except.ok (none, some (linspace best_ask ask_upper s.max_orders))
    else
      let recentered :=
        if ask_skew ≤ bid_skew then
          let bb := best_ask - spread * 0.33
          (bb, bb + spread * 0.67)
        else
          let ba := best_bid + spread * 0.33
          (ba - spread * 0.67, ba)
      let base_range := s.config.volatility_value / 2
      let bid_lower := recentered.1 - base_range * (1 - bid_skew)
      let ask_upper := recentered.2 + base_range * (1 - ask_skew)
      Except.ok (some (geomspace recentered.1 bid_lower (s.max_orders / 2)),
        some (geomspace recentered.2 ask_upper (s.max_orders / 2)))
  | _, _ => Except.error "list index out of range"

/-- `np.median` of the two-element list `[a, b]`. -/
noncomputable def median2 (a b : ℝ) : ℝ := (a + b) / 2

/-- `MarketMaker._sizes`: bid/ask size ladders from the skew pair.  A forced
side receives `max_orders` copies of the median of `min_order_size` and
`max_order_size / 2`; otherwise both sides get `geomspace` ladders between
skew-adjusted bounds. -/
noncomputable def sizesFn (s : MMState) (bid_skew ask_skew : ℝ) :
    Option (List ℝ) × Option (List ℝ) :=
  if 1 ≤ bid_skew then
    (some (List.replicate s.max_orders
      (median2 s.config.min_order_size (s.config.max_order_size / 2))), none)
  else if 1 ≤ ask_skew then
    (none, some (List.replicate s.max_orders
      (median2 s.config.min_order_size (s.config.max_order_size / 2))))
  else
    let bid_min := s.config.min_order_size * (1 + bid_skew ^ ((0.5 : ℝ)))
    let bid_upper := s.config.max_order_size * (1 - bid_skew)
    let ask_min := s.config.min_order_size * (1 + ask_skew ^ ((0.5 : ℝ)))
    let ask_upper := s.config.max_order_size * (1 - ask_skew)
    (some (geomspace (if ask_skew ≤ bid_skew then bid_min else s.config.min_order_size)
        bid_upper (s.max_orders / 2)),
      some (geomspace (if bid_skew ≤ ask_skew then ask_min else s.config.min_order_size)
        ask_upper (s.max_orders / 2)))

/-- `MarketMaker.generate_quotes`: flatten the price and size ladders into
`("Buy"/"Sell", price, size)` triples, bids first. -/
noncomputable def generateQuotes (s : MMState) (hour : ℕ) :
    Except String (List (String × ℝ × ℝ)) :=
  let skews := skewPair s
  match pricesFn s skews.1 skews.2 hour with
  | Except.error e => Except.error e
  | Except.ok prices =>
    let sizes := sizesFn s skews.1 skews.2
    let bidQuotes :=
      match prices.1, sizes.1 with
      | some ps, some szs => (ps.zip szs).map fun q => ("Buy", q.1, q.2)
      | _, _ => []
    let askQuotes :=
      match prices.2, sizes.2 with
      | some ps, some szs => (ps.zip szs).map fun q => ("Sell", q.1, q.2)
      | _, _ => []
    Except.ok (bidQuotes ++ askQuotes)

/-- Python `int(x)` on a float: truncation toward zero. -/
noncomputable def pyInt (x : ℝ) : ℤ :=
  if 0 ≤ x then ⌊x⌋ else ⌈x⌉

/-- `driftpy` `BASE_PRECISION`. -/
def BASE_PRECISION : ℝ := 1000000000

/-- `driftpy` `PRICE_PRECISION`. -/
def PRICE_PRECISION : ℝ := 1000000

/-- The `OrderParams` built by `MarketMaker.place_orders` for one quote. -/
noncomputable def buildOrderParams (q : String × ℝ × ℝ) : OrderParams :=
  { kind := OrderKind.limit
    direction := if q.1 = "Buy" then Direction.long else Direction.short
    baseAssetAmount := pyInt (q.2.2 * BASE_PRECISION)
    price := pyInt (q.2.1 * PRICE_PRECISION)
    reduceOnly := false }

/-- Python dict assignment `m[k] = v` on the order map. -/
def dictInsert (m : List (ℕ × OrderParams)) (k : ℕ) (v : OrderParams) :
    List (ℕ × OrderParams) :=
  if m.any fun e => e.1 = k then
    m.map fun e => if e.1 = k then (k, v) else e
  else m ++ [(k, v)]

/-- The submission loop of `MarketMaker.place_orders`: for each quote,
`place_order_and_get_order_id` returns either nothing (failure), a tx with no
order id, or a tx with an order id; only the last case records the order.
The exchange responses are passed as an oracle list aligned with the quotes. -/
noncomputable def placeOrdersLoop (m : List (ℕ × OrderParams))
    (quotes : List (String × ℝ × ℝ)) (results : List (Option (ℕ × Option ℕ))) :
    List (ℕ × OrderParams) :=
  match quotes, results with
  | q :: qs, r :: rs =>
    match r with
    | some (_tx, some oid) => placeOrdersLoop (dictInsert m oid (buildOrderParams q)) qs rs
    | _ => placeOrdersLoop m qs rs
  | _, _ => m

/-- Modelled from the spec: `cancel_all_orders` is awaited by `place_orders`
and `reset` but its body is not among the sources.  Per the Order
Lifecycle contract of the spec ("replace the entire resting order set each tick: (1)
cancel all currently tracked orders") and the `OrderRecord` lifecycle
("replaced wholesale every tick (cancel-all → re-place)"), it cancels every
tracked order, leaving the tracking map empty. -/
def cancelAllOrders (s : MMState) : MMState :=
  { s with current_orders := [] }

/-- The order ids of the submissions that succeeded with an identifier. -/
def successIds (results : List (Option (ℕ × Option ℕ))) : List ℕ :=
  results.filterMap fun r =>
    match r with
    | some (_tx, some oid) => some oid
    | _ => none

/-- `MarketMaker.place_orders`: cancel-all, generate quotes, then submit each
quote, tracking `(order_id → order_params)` for identified successes. -/
noncomputable def placeOrders (s : MMState) (results : List (Option (ℕ × Option ℕ)))
    (hour : ℕ) : Except String MMState :=
  let s1 := cancelAllOrders s
  match generateQuotes s1 hour with
  | Except.error e => Except.error e
  | Except.ok quotes =>
    Except.ok { s1 with current_orders := placeOrdersLoop s1.current_orders quotes results }

/-- `MarketMaker.health_check`: when at least `health_check_interval` has
passed since `last_health_check`, stamp the time and probe the exchange
(`get_market`); success sets `is_healthy = true`, an exception is caught and
sets `is_healthy = false`.  The probe outcome is the `apiOk` oracle. -/
def healthCheck (s : MMState) (t : ℤ) (apiOk : Bool) : MMState :=
  if s.health_check_interval ≤ t - s.last_health_check then
    { s with last_health_check := t, is_healthy := apiOk }
  else s

/-- `MarketMaker.reset`: stop, cancel all orders, clear the order map, zero the
cached position and market data, reset the health fields, re-query the
position and restart.  The position returned by the re-query
(`update_position`, whose body is not among the sources; modelled from the
spec: "re-queries position") is the `newPos` oracle. -/
def resetState (s : MMState) (newPos : ℝ) : MMState :=
  { s with
    current_orders := []
    position_size := newPos
    last_trade_price := none
    order_book := ⟨[], []⟩
    last_health_check := 0
    is_healthy := true
    is_running := true }

/-- One health evaluation of `start_interval_loop`: run `health_check`; when
the engine is unhealthy, run `reset` and skip the rest of the tick.  Returns
the new state, whether the rate-limited probe actually ran, and whether a
reset ran. -/
def healthPhase (s : MMState) (t : ℤ) (apiOk : Bool) (newPos : ℝ) :
    MMState × Bool × Bool :=
  let evaluated := decide (s.health_check_interval ≤ t - s.last_health_check)
  let s1 := healthCheck s t apiOk
  if s1.is_healthy then (s1, evaluated, false)
  else (resetState s1 newPos, evaluated, true)

/-! Concrete states used to exercise the definitions. -/

/-- A small concrete configuration. -/
noncomputable def baseConfig : MMConfig :=
  { inventory_target := 0
    max_position_size := 100
    base_spread := 1
    min_order_size := 1
    max_order_size := 10
    order_size := 5
    volatility_value := 0.02 }

/-- A concrete engine state with a flat position, matching last price and
VWAP, a small two-sided book, and the constructor defaults
(`inventory_extreme = 50`, `max_orders = 8`, `volatility = 0.01`,
`health_check_interval = 60`). -/
noncomputable def baseState : MMState :=
  { config := baseConfig
    position_size := 0
    last_trade_price := some 100
    vwap := some 100
    order_book := ⟨[(99, 10)], [(101, 10)]⟩
    inventory_extreme := 50
    max_orders := 8
    volatility := 0.01
    volatility_window := 20
    price_history := []
    health_check_interval := 60
    last_health_check := 0
    is_healthy := true
    is_running := false
    current_orders := [] }

/-- `baseState` with a small long position and an empty book. -/
noncomputable def cs1 : MMState :=
  { baseState with position_size := 2, order_book := ⟨[], []⟩ }

/-- `baseState` with the last trade price missing, a small short position and
an empty book. -/
noncomputable def cs3 : MMState :=
  { baseState with
    last_trade_price := none
    position_size := -2
    order_book := ⟨[], []⟩ }

/-- `baseState` with five levels of size 10 on each side of the book. -/
noncomputable def cs4 : MMState :=
  { baseState with
    order_book := ⟨[(99, 10), (98, 10), (97, 10), (96, 10), (95, 10)],
      [(101, 10), (102, 10), (103, 10), (104, 10), (105, 10)]⟩ }

/-- `baseState` with an empty price history and a volatility window of 3. -/
noncomputable def volState0 : MMState :=
  { baseState with price_history := [], volatility_window := 3 }

/-- `baseState` with a position of 80 (far from the target of 0). -/
noncomputable def cs6 : MMState :=
  { baseState with position_size := 80 }

/-- `baseState` with a position of 120 (beyond both `max_position_size = 100`
and `inventory_extreme = 50`), volatility 0.03, and a five-level book. -/
noncomputable def cs9 : MMState :=
  { baseState with
    position_size := 120
    volatility := 0.03
    order_book := ⟨[(99, 10), (98, 10), (97, 10), (96, 10), (95, 10)],
      [(101, 10), (102, 10), (103, 10), (104, 10), (105, 10)]⟩ }

/-- Four demo quotes for the submission loop. -/
noncomputable def demoQuotes : List (String × ℝ × ℝ) :=
  [("Buy", 100, 1), ("Buy", 99, 1), ("Sell", 101, 1), ("Sell", 102, 1)]

/-- Demo exchange responses: the second of four submissions fails. -/
def demoResults : List (Option (ℕ × Option ℕ)) :=
  [some (1, some 11), none, some (2, some 12), some (3, some 13)]

/-! Helper facts about `Real.tanh` and `round2`. -/

theorem tanh_lt_one (x : ℝ) : Real.tanh x < 1 := by
  rw [Real.tanh_eq_sinh_div_cosh]
  exact (div_lt_one (Real.cosh_pos x)).2 (Real.sinh_lt_cosh x)

theorem neg_one_lt_tanh (x : ℝ) : -1 < Real.tanh x := by
  have h := tanh_lt_one (-x)
  rw [Real.tanh_eq_sinh_div_cosh] at h ⊢
  rw [Real.sinh_neg, Real.cosh_neg, neg_div] at h
  linarith

theorem abs_tanh_le_one (x : ℝ) : |Real.tanh x| ≤ 1 :=
  abs_le.2 ⟨(neg_one_lt_tanh x).le, (tanh_lt_one x).le⟩

theorem tanh_nonneg {x : ℝ} (hx : 0 ≤ x) : 0 ≤ Real.tanh x := by
  rw [Real.tanh_eq_sinh_div_cosh]
  exact div_nonneg (by rwa [Real.sinh_nonneg_iff]) (Real.cosh_pos x).le

theorem round2_le_of_le {x b : ℝ} (h : x ≤ b) : round2 x ≤ (round (b * 100) : ℤ) / 100 := by
  unfold round2
  have h1 : round (x * 100) ≤ round (b * 100) := by
    rw [round_eq, round_eq]
    exact Int.floor_le_floor (by linarith)
  have h2 : ((round (x * 100) : ℤ) : ℝ) ≤ ((round (b * 100) : ℤ) : ℝ) := by
    exact_mod_cast h1
  linarith

theorem le_round2_of_le {x a : ℝ} (h : a ≤ x) : (round (a * 100) : ℤ) / 100 ≤ round2 x := by
  unfold round2
  have h1 : round (a * 100) ≤ round (x * 100) := by
    rw [round_eq, round_eq]
    exact Int.floor_le_floor (by linarith)
  have h2 : ((round (a * 100) : ℤ) : ℝ) ≤ ((round (x * 100) : ℤ) : ℝ) := by
    exact_mod_cast h1
  linarith

theorem round2_zero : round2 0 = 0 := by
  simp [round2]

theorem round2_le_half {x : ℝ} (h : x ≤ 1 / 2) : round2 x ≤ 1 / 2 := by
  have := round2_le_of_le h
  have h50 : round ((1 / 2 : ℝ) * 100) = 50 := by norm_num
  rw [h50] at this
  norm_num at this
  linarith

theorem neg_half_le_round2 {x : ℝ} (h : -(1 / 2) ≤ x) : -(1 / 2) ≤ round2 x := by
  have := le_round2_of_le h
  have h50 : round ((-(1 / 2) : ℝ) * 100) = -50 := by
    rw [show ((-(1 / 2) : ℝ) * 100) = ((-50 : ℤ) : ℝ) by norm_num]
    exact round_intCast (-50)
  rw [h50] at this
  norm_num at this
  linarith

theorem round2_nonpos {x : ℝ} (h : x ≤ 0) : round2 x ≤ 0 := by
  have := round2_le_of_le h
  simp at this
  linarith

theorem round2_nonneg {x : ℝ} (h : 0 ≤ x) : 0 ≤ round2 x := by
  have := le_round2_of_le h
  simp at this
  linarith

theorem skewBefore_bid_bound (s : MMState) :
    |(skewBeforeDegenerate s).1| ≤ max 1 |skewDelta s| := by
  have h1 : (1 : ℝ) ≤ max 1 |skewDelta s| := le_max_left _ _
  have hdm : |skewDelta s| ≤ max 1 |skewDelta s| := le_max_right _ _
  simp only [skewBeforeDegenerate]
  have hb0 : (0 : ℝ) ≤ max 0 (min (round2 (generateSkew s)) 1) := le_max_left _ _
  have hb1 : max 0 (min (round2 (generateSkew s)) 1) ≤ 1 :=
    max_le (by norm_num) (min_le_right _ _)
  split_ifs with hforce hneg
  · rcases le_or_lt 0 (max 0 (min (round2 (generateSkew s)) 1) + skewDelta s) with hc | hc
    · rw [abs_of_nonneg hc]
      linarith
    · rw [abs_of_neg hc]
      have hda : -skewDelta s ≤ |skewDelta s| := neg_le_abs _
      linarith
  · rw [add_zero, abs_of_nonneg hb0]
    linarith
  · rw [abs_one]
    exact h1

theorem skewBefore_ask_bound (s : MMState) :
    |(skewBeforeDegenerate s).2| ≤ max 1 |skewDelta s| := by
  have h1 : (1 : ℝ) ≤ max 1 |skewDelta s| := le_max_left _ _
  have hdm : |skewDelta s| ≤ max 1 |skewDelta s| := le_max_right _ _
  simp only [skewBeforeDegenerate]
  have ha0 : (0 : ℝ) ≤ max 0 (min (-round2 (generateSkew s)) 1) := le_max_left _ _
  have ha1 : max 0 (min (-round2 (generateSkew s)) 1) ≤ 1 :=
    max_le (by norm_num) (min_le_right _ _)
  split_ifs with hforce hpos
  · rcases le_or_lt 0 (max 0 (min (-round2 (generateSkew s)) 1) - skewDelta s) with hc | hc
    · rw [abs_of_nonneg hc]
      linarith
    · rw [abs_of_neg hc]
      have hda : skewDelta s ≤ |skewDelta s| := le_abs_self _
      linarith
  · rw [sub_zero, abs_of_nonneg ha0]
    linarith
  · rw [abs_one]
    exact h1

/-- C1 (amended): `_skew` always returns nonnegative components, each bounded
by `max 1 |position − inventory_target|`; the `[0,1]` interval claimed by the
spec can be exceeded by the inventory-delta adjustment. -/
theorem skew_components_bounded (s : MMState) :
    0 ≤ (skewPair s).1 ∧ 0 ≤ (skewPair s).2 ∧
    (skewPair s).1 ≤ max 1 |skewDelta s| ∧
    (skewPair s).2 ≤ max 1 |skewDelta s| := by
  have h1 : (1 : ℝ) ≤ max 1 |skewDelta s| := le_max_left _ _
  simp only [skewPair]
  split_ifs with hcond
  · exact ⟨le_refl 0, le_refl 0, le_trans zero_le_one h1, le_trans zero_le_one h1⟩
  · exact ⟨abs_nonneg _, abs_nonneg _, skewBefore_bid_bound s, skewBefore_ask_bound s⟩

/-- C1 counterexample: at `cs1` (position 2, target 0, extreme 50, matching
price and VWAP, empty book) the ask component of `_skew` exceeds 1, refuting
`(bid_skew, ask_skew) ∈ [0,1] × [0,1]`. -/
theorem skew_interval_counterexample : 1 < (skewPair cs1).2 := by
  have ht0 : (0 : ℝ) ≤ Real.tanh (1 / 25) := tanh_nonneg (by norm_num)
  have ht1 : Real.tanh (1 / 25) ≤ 1 := (tanh_lt_one _).le
  have hgeq : generateSkew cs1 = 0.5 * -Real.tanh (1 / 25) := by
    simp only [generateSkew, cs1, baseState, baseConfig, bookVolume]
    norm_num
  have hg1 : generateSkew cs1 ≤ 0 := by rw [hgeq]; linarith
  have hg2 : -(1 / 2) ≤ generateSkew cs1 := by rw [hgeq]; linarith
  have hr1 : round2 (generateSkew cs1) ≤ 0 := round2_nonpos hg1
  have hr2 : -(1 / 2) ≤ round2 (generateSkew cs1) := neg_half_le_round2 hg2
  have hd : skewDelta cs1 = 2 := by norm_num [skewDelta, cs1, baseState, baseConfig]
  have hie : cs1.inventory_extreme = 50 := by norm_num [cs1, baseState]
  unfold skewPair
  rw [if_neg (by rw [hd]; intro hcc; norm_num at hcc)]
  simp only [skewBeforeDegenerate, hd, hie]
  norm_num
  have hmin : min (-round2 (generateSkew cs1)) 1 = -round2 (generateSkew cs1) :=
    min_eq_left (by linarith)
  have hmax : max 0 (-round2 (generateSkew cs1)) = -round2 (generateSkew cs1) :=
    max_eq_right (by linarith)
  rw [hmin, hmax]
  rw [abs_of_neg (by linarith : -round2 (generateSkew cs1) - 2 < 0)]
  linarith

/-- C2: `_adjusted_spread` stays within `[base_spread/2, base_spread*5]` and
is positive, for any market state, whenever `base_spread > 0`. -/
theorem adjustedSpread_bounds (s : MMState) (hour : ℕ)
    (h : 0 < s.config.base_spread) :
    s.config.base_spread / 2 ≤ adjustedSpread s hour ∧
    adjustedSpread s hour ≤ s.config.base_spread * 5 ∧
    0 < adjustedSpread s hour := by
  unfold adjustedSpread
  refine ⟨le_max_left _ _, ?_, ?_⟩
  · exact max_le (by linarith) (min_le_right _ _)
  · exact lt_of_lt_of_le (by linarith) (le_max_left _ _)

/-- Witness for C2 at the concrete `baseState` during hour 3. -/
theorem adjustedSpread_bounds_witness :
    0 < baseState.config.base_spread ∧
    (baseState.config.base_spread / 2 ≤ adjustedSpread baseState 3 ∧
     adjustedSpread baseState 3 ≤ baseState.config.base_spread * 5 ∧
     0 < adjustedSpread baseState 3) :=
  ⟨by norm_num [baseState, baseConfig],
   adjustedSpread_bounds baseState 3 (by norm_num [baseState, baseConfig])⟩

theorem depthFactor_nonempty (s : MMState) (hb : s.order_book.bids ≠ [])
    (ha : s.order_book.asks ≠ []) :
    depthFactor s =
      1 + 100 / ((top5Volume s.order_book.bids + top5Volume s.order_book.asks) / 2 + 1) := by
  unfold depthFactor
  rw [if_pos ⟨hb, ha⟩]

/-- C4 (amended): with both book sides non-empty the depth factor is
`1 + 100/(avg_top5_volume + 1) = 1 + 200/(top5_bid + top5_ask + 2)`; when a
side is empty it is the fixed fallback `1.5`. -/
theorem depthFactor_formula (s : MMState) :
    (s.order_book.bids ≠ [] → s.order_book.asks ≠ [] →
      depthFactor s =
        1 + 200 / (top5Volume s.order_book.bids + top5Volume s.order_book.asks + 2)) ∧
    ((s.order_book.bids = [] ∨ s.order_book.asks = []) → depthFactor s = 1.5) := by
  constructor
  · intro hb ha
    rw [depthFactor_nonempty s hb ha]
    have h2 : (top5Volume s.order_book.bids + top5Volume s.order_book.asks) / 2 + 1 =
        (top5Volume s.order_book.bids + top5Volume s.order_book.asks + 2) / 2 := by
      ring
    rw [h2, div_div_eq_mul_div]
    norm_num
  · intro h
    unfold depthFactor
    rw [if_neg]
    rintro ⟨hb, ha⟩
    rcases h with h | h
    · exact hb h
    · exact ha h

/-- C4 counterexample: with five size-10 levels per side the depth factor
computed by the code is `1 + 100/51`, not the claimed
`1 + 100/(top5_bid + top5_ask + 1)`. -/
theorem depthFactor_counterexample :
    depthFactor cs4 = 1 + 100 / 51 ∧
    (1 + 100 / 51 : ℝ) ≠ 1 + 100 / (50 + 50 + 1) := by
  constructor
  · rw [depthFactor_nonempty cs4 (by simp [cs4, baseState]) (by simp [cs4, baseState])]
    norm_num [cs4, baseState, top5Volume]
  · norm_num

/-- Witness for C4 at the concrete five-level book `cs4`. -/
theorem depthFactor_formula_witness :
    depthFactor cs4 =
      1 + 200 / (top5Volume cs4.order_book.bids + top5Volume cs4.order_book.asks + 2) :=
  (depthFactor_formula cs4).1 (by simp [cs4, baseState]) (by simp [cs4, baseState])

/-- C6: when `|position| ≤ max_position_size` and the deviation from the
inventory target exceeds `order_size`, `manage_inventory` emits exactly one
market order sized `min(|position − target|, max_position_size − |position|)`
in the deviation-reducing direction, and a full fill keeps
`|position| ≤ max_position_size`; a deviation within `order_size` emits no
order. -/
theorem manageInventory_props (s : MMState)
    (hpos : |s.position_size| ≤ s.config.max_position_size) :
    (s.config.order_size < |s.position_size - s.config.inventory_target| →
      ∃ d z, manageInventory s = some (d, z) ∧
        z = min |s.position_size - s.config.inventory_target|
          (s.config.max_position_size - |s.position_size|) ∧
        (s.config.inventory_target < s.position_size → d = Direction.short) ∧
        (s.position_size < s.config.inventory_target → d = Direction.long) ∧
        |fillPosition s.position_size d z| ≤ s.config.max_position_size) ∧
    (|s.position_size - s.config.inventory_target| ≤ s.config.order_size →
      manageInventory s = none) := by
  constructor
  · intro hdev
    unfold manageInventory
    rw [if_pos hdev]
    refine ⟨_, _, rfl, rfl, ?_, ?_, ?_⟩
    · intro hgt
      rw [if_pos hgt]
    · intro hlt
      rw [if_neg (by linarith)]
    · have habs := abs_nonneg (s.position_size - s.config.inventory_target)
      have hle := le_abs_self s.position_size
      have hge := neg_abs_le s.position_size
      have hz0 : 0 ≤ min |s.position_size - s.config.inventory_target|
          (s.config.max_position_size - |s.position_size|) :=
        le_min habs (by linarith)
      have hzB : min |s.position_size - s.config.inventory_target|
          (s.config.max_position_size - |s.position_size|) ≤
          s.config.max_position_size - |s.position_size| := min_le_right _ _
      split_ifs with hdir
      · rw [show fillPosition s.position_size Direction.short
            (min |s.position_size - s.config.inventory_target|
              (s.config.max_position_size - |s.position_size|)) =
            s.position_size - min |s.position_size - s.config.inventory_target|
              (s.config.max_position_size - |s.position_size|) from rfl]
        rw [abs_le]
        constructor <;> linarith
      · rw [show fillPosition s.position_size Direction.long
            (min |s.position_size - s.config.inventory_target|
              (s.config.max_position_size - |s.position_size|)) =
            s.position_size + min |s.position_size - s.config.inventory_target|
              (s.config.max_position_size - |s.position_size|) from rfl]
        rw [abs_le]
        constructor <;> linarith
  · intro hdev
    unfold manageInventory
    rw [if_neg (not_lt.2 hdev)]

theorem generateSkew_of_missing {s : MMState}
    (h : s.last_trade_price = none ∨ s.vwap = none) : generateSkew s = 0 := by
  cases hlp : s.last_trade_price with
  | none => cases hvw : s.vwap <;> simp [generateSkew, hlp, hvw]
  | some lp =>
    cases hvw : s.vwap with
    | none => simp [generateSkew, hlp, hvw]
    | some vw =>
      rcases h with h | h
      · rw [hlp] at h
        exact absurd h (by simp)
      · rw [hvw] at h
        exact absurd h (by simp)

theorem skewPair_of_zero_skew_zero_delta {s : MMState}
    (hg : generateSkew s = 0) (hd : skewDelta s = 0) : skewPair s = (0, 0) := by
  simp only [skewPair, skewBeforeDegenerate, hg, hd, round2_zero, neg_zero,
    lt_irrefl, if_false, add_zero, sub_zero]
  have hclamp : max (0 : ℝ) (min 0 1) = 0 := by norm_num [min_def, max_def]
  rw [hclamp]
  by_cases he : 0 < s.inventory_extreme
  · rw [if_pos (by linarith : -s.inventory_extreme < (0 : ℝ)), if_pos he]
    norm_num
  · rw [if_neg (by linarith : ¬ -s.inventory_extreme < (0 : ℝ)), if_neg he]
    norm_num

/-- C3 (amended): with the last trade price or the VWAP missing,
`_generate_skew` is neutral `0` (a logged warning, not an error), and `_skew`
returns `(0,0)` when additionally the position sits at the inventory target
(the inventory-delta adjustments of `_skew` still apply otherwise); `_prices`
on an empty book side raises `IndexError` (caught at the loop boundary)
rather than yielding empty quotes. -/
theorem missing_data_neutral (s : MMState) (b a : ℝ) (hour : ℕ)
    (h : s.last_trade_price = none ∨ s.vwap = none) :
    generateSkew s = 0 ∧
    (s.position_size = s.config.inventory_target → skewPair s = (0, 0)) ∧
    ((s.order_book.bids = [] ∨ s.order_book.asks = []) →
      pricesFn s b a hour = Except.error "list index out of range") := by
  refine ⟨generateSkew_of_missing h, ?_, ?_⟩
  · intro hpt
    exact skewPair_of_zero_skew_zero_delta (generateSkew_of_missing h)
      (by simp [skewDelta, hpt])
  · intro hob
    cases hbl : s.order_book.bids with
    | nil => simp [pricesFn, hbl]
    | cons x xs =>
      rcases hob with hb | ha
      · rw [hbl] at hb
        exact absurd hb (by simp)
      · simp [pricesFn, hbl, ha]

/-- C3 counterexample: at `cs3` the last trade price is missing yet `_skew`
returns `(2, 0)`, not the claimed neutral `(0, 0)`, because the inventory
adjustment still applies to the short position; and `_prices` on the empty
book raises instead of yielding no quotes. -/
theorem missing_data_counterexample :
    skewPair cs3 = (2, 0) ∧ skewPair cs3 ≠ (0, 0) ∧
    pricesFn cs3 0 0 3 = Except.error "list index out of range" := by
  have hg : generateSkew cs3 = 0 := by simp [generateSkew, cs3, baseState]
  have hd : skewDelta cs3 = -2 := by norm_num [skewDelta, cs3, baseState, baseConfig]
  have hie : cs3.inventory_extreme = 50 := by norm_num [cs3, baseState]
  have hpair : skewPair cs3 = (2, 0) := by
    simp only [skewPair, skewBeforeDegenerate, hg, hd, hie, round2_zero, neg_zero]
    norm_num [min_def, max_def]
  refine ⟨hpair, by rw [hpair]; norm_num, ?_⟩
  simp [pricesFn, cs3, baseState]

/-- Witness for C3 (amended) at the concrete `cs3`. -/
theorem missing_data_neutral_witness :
    (cs3.last_trade_price = none ∨ cs3.vwap = none) ∧
    (generateSkew cs3 = 0 ∧
     (cs3.position_size = cs3.config.inventory_target → skewPair cs3 = (0, 0)) ∧
     ((cs3.order_book.bids = [] ∨ cs3.order_book.asks = []) →
       pricesFn cs3 0 0 3 = Except.error "list index out of range")) :=
  ⟨Or.inl (by simp [cs3, baseState]),
   missing_data_neutral cs3 0 0 3 (Or.inl (by simp [cs3, baseState]))⟩

theorem abs_generateSkew_le_half (s : MMState) (hd : skewDelta s = 0) :
    |generateSkew s| ≤ 1 / 2 := by
  have hdiff : s.position_size - s.config.inventory_target = 0 := hd
  cases hlp : s.last_trade_price with
  | none => cases hvw : s.vwap <;> simp [generateSkew, hlp, hvw]
  | some lp =>
    cases hvw : s.vwap with
    | none => simp [generateSkew, hlp, hvw]
    | some vw =>
      simp only [generateSkew, hlp, hvw]
      rw [hdiff, zero_div, Real.tanh_zero]
      have h1 := abs_tanh_le_one ((lp - vw) / vw * 10)
      rcases abs_le.1 h1 with ⟨ha1, ha2⟩
      have h3 : |if 0 < bookVolume s.order_book.bids + bookVolume s.order_book.asks
          then Real.tanh ((bookVolume s.order_book.bids - bookVolume s.order_book.asks) /
            (bookVolume s.order_book.bids + bookVolume s.order_book.asks) * 2)
          else 0| ≤ 1 := by
        split_ifs
        · exact abs_tanh_le_one _
        · norm_num
      rcases abs_le.1 h3 with ⟨hb1, hb2⟩
      rw [abs_le]
      constructor <;> [nlinarith; nlinarith]

theorem skewBefore_of_forced_bid {s : MMState}
    (h : skewDelta s ≤ -s.inventory_extreme) : (skewBeforeDegenerate s).1 = 1 := by
  simp only [skewBeforeDegenerate]
  rw [if_neg (not_lt.2 h)]

theorem skewBefore_of_forced_ask {s : MMState}
    (h : s.inventory_extreme ≤ skewDelta s) : (skewBeforeDegenerate s).2 = 1 := by
  simp only [skewBeforeDegenerate]
  rw [if_neg (not_lt.2 h)]

theorem skewBefore_unforced_le_half {s : MMState} (hd : skewDelta s = 0)
    (he : 0 < s.inventory_extreme) :
    (skewBeforeDegenerate s).1 ≤ 1 / 2 ∧ (skewBeforeDegenerate s).2 ≤ 1 / 2 := by
  have hg := abs_generateSkew_le_half s hd
  rcases abs_le.1 hg with ⟨hg1, hg2⟩
  have hr1 : round2 (generateSkew s) ≤ 1 / 2 := round2_le_half hg2
  have hr2 : -(1 / 2) ≤ round2 (generateSkew s) := neg_half_le_round2 hg1
  simp only [skewBeforeDegenerate, hd]
  rw [if_pos (by linarith : -s.inventory_extreme < (0 : ℝ)), if_pos he]
  constructor <;>
  · simp only [ite_self, add_zero, sub_zero]
    exact max_le (by norm_num) (le_trans (min_le_left _ _) (by linarith))

/-- C10: the degenerate guard of `_skew` fires exactly when both sides are at
the forced extreme while the inventory delta is `0`; with a nonzero delta, or
with exactly one side at `1`, the guard does not replace the computed pair. -/
theorem degenerate_skew_iff (s : MMState) :
    ((((skewBeforeDegenerate s).1 = 1 ∨ (skewBeforeDegenerate s).2 = 1) ∧
        skewDelta s = 0) ↔
      ((skewDelta s ≤ -s.inventory_extreme ∧ s.inventory_extreme ≤ skewDelta s) ∧
        skewDelta s = 0)) ∧
    (skewDelta s ≠ 0 →
      skewPair s = (|(skewBeforeDegenerate s).1|, |(skewBeforeDegenerate s).2|)) ∧
    ((((skewBeforeDegenerate s).1 = 1 ∧ (skewBeforeDegenerate s).2 ≠ 1) ∨
      ((skewBeforeDegenerate s).1 ≠ 1 ∧ (skewBeforeDegenerate s).2 = 1)) →
      skewPair s = (|(skewBeforeDegenerate s).1|, |(skewBeforeDegenerate s).2|)) := by
  refine ⟨⟨?_, ?_⟩, ?_, ?_⟩
  · rintro ⟨hor, hd⟩
    by_cases he : 0 < s.inventory_extreme
    · rcases skewBefore_unforced_le_half hd he with ⟨hb, ha⟩
      rcases hor with h1 | h1
      · rw [h1] at hb
        linarith
      · rw [h1] at ha
        linarith
    · exact ⟨⟨by rw [hd]; linarith, by rw [hd]; linarith⟩, hd⟩
  · rintro ⟨⟨hf1, _⟩, hd⟩
    exact ⟨Or.inl (skewBefore_of_forced_bid hf1), hd⟩
  · intro hd
    simp only [skewPair]
    rw [if_neg (fun hc => hd hc.2)]
  · intro hone
    simp only [skewPair]
    rw [if_neg]
    rintro ⟨hor, hd⟩
    by_cases he : 0 < s.inventory_extreme
    · rcases skewBefore_unforced_le_half hd he with ⟨hb, ha⟩
      rcases hor with h1 | h1
      · rw [h1] at hb
        linarith
      · rw [h1] at ha
        linarith
    · have hb1 : (skewBeforeDegenerate s).1 = 1 :=
        skewBefore_of_forced_bid (by rw [hd]; linarith)
      have ha1 : (skewBeforeDegenerate s).2 = 1 :=
        skewBefore_of_forced_ask (by rw [hd]; linarith)
      rcases hone with ⟨_, hne⟩ | ⟨hne, _⟩
      · exact hne ha1
      · exact hne hb1

/-- Witness for C10 at the concrete `cs1` (inventory delta 2, extreme 50). -/
theorem degenerate_skew_iff_witness :
    skewDelta cs1 ≠ 0 ∧
    skewPair cs1 = (|(skewBeforeDegenerate cs1).1|, |(skewBeforeDegenerate cs1).2|) := by
  have hd : skewDelta cs1 = 2 := by norm_num [skewDelta, cs1, baseState, baseConfig]
  have hd2 : skewDelta cs1 ≠ 0 := by rw [hd]; norm_num
  exact ⟨hd2, (degenerate_skew_iff cs1).2.1 hd2⟩

/-- Witness for C6 at the concrete `cs6` (position 80, target 0, limit 100,
order size 5). -/
theorem manageInventory_props_witness :
    |cs6.position_size| ≤ cs6.config.max_position_size ∧
    ((cs6.config.order_size < |cs6.position_size - cs6.config.inventory_target| →
      ∃ d z, manageInventory cs6 = some (d, z) ∧
        z = min |cs6.position_size - cs6.config.inventory_target|
          (cs6.config.max_position_size - |cs6.position_size|) ∧
        (cs6.config.inventory_target < cs6.position_size → d = Direction.short) ∧
        (cs6.position_size < cs6.config.inventory_target → d = Direction.long) ∧
        |fillPosition cs6.position_size d z| ≤ cs6.config.max_position_size) ∧
    (|cs6.position_size - cs6.config.inventory_target| ≤ cs6.config.order_size →
      manageInventory cs6 = none)) :=
  ⟨by norm_num [cs6, baseState, baseConfig],
   manageInventory_props cs6 (by norm_num [cs6, baseState, baseConfig])⟩

/-- C5: `update_volatility` keeps at most `volatility_window` prices and
evicts the oldest on overflow; with fewer than two stored prices the previous
volatility is kept, with at least two it becomes
`np.std(returns) * sqrt(len(returns))`; for window 3 and prices
`[100, 101, 99]` exactly two returns are computed, and a fourth price evicts
`100` before recomputation. -/
theorem updateVolatility_props (s : MMState) (p : ℝ) :
    (s.price_history.length ≤ s.volatility_window →
      (feedPrice s p).price_history.length ≤ s.volatility_window) ∧
    (s.price_history.length = s.volatility_window → s.price_history ≠ [] →
      (feedPrice s p).price_history = s.price_history.tail ++ [p]) ∧
    ((feedPrice s p).price_history.length < 2 →
      (feedPrice s p).volatility = s.volatility) ∧
    (2 ≤ (feedPrice s p).price_history.length →
      (feedPrice s p).volatility =
        npStd (returnsOf (feedPrice s p).price_history) *
          Real.sqrt ((returnsOf (feedPrice s p).price_history).length)) ∧
    (feedPrice (feedPrice (feedPrice volState0 100) 101) 99).price_history =
      [100, 101, 99] ∧
    returnsOf [(100 : ℝ), 101, 99] = [101 / 100 - 1, 99 / 101 - 1] ∧
    (returnsOf [(100 : ℝ), 101, 99]).length = 2 ∧
    (feedPrice (feedPrice (feedPrice volState0 100) 101) 99).volatility =
      npStd (returnsOf [(100 : ℝ), 101, 99]) * Real.sqrt 2 ∧
    (feedPrice (feedPrice (feedPrice (feedPrice volState0 100) 101) 99) 102).price_history =
      [101, 99, 102] := by
  have step1 : ∀ t : MMState, t.price_history = [] → t.volatility_window = 3 →
      (feedPrice t 100).price_history = [100] ∧
      (feedPrice t 100).volatility_window = 3 ∧
      (feedPrice t 100).volatility = t.volatility := by
    intro t h1 h2
    norm_num [feedPrice, updateVolatility, h1, h2]
  have step2 : ∀ t : MMState, t.price_history = [100] → t.volatility_window = 3 →
      (feedPrice t 101).price_history = [100, 101] ∧
      (feedPrice t 101).volatility_window = 3 := by
    intro t h1 h2
    norm_num [feedPrice, updateVolatility, h1, h2]
  have step3 : ∀ t : MMState, t.price_history = [100, 101] → t.volatility_window = 3 →
      (feedPrice t 99).price_history = [100, 101, 99] ∧
      (feedPrice t 99).volatility_window = 3 ∧
      (feedPrice t 99).volatility =
        npStd (returnsOf [(100 : ℝ), 101, 99]) *
          Real.sqrt ((returnsOf [(100 : ℝ), 101, 99]).length) := by
    intro t h1 h2
    norm_num [feedPrice, updateVolatility, h1, h2]
  have step4 : ∀ t : MMState, t.price_history = [100, 101, 99] → t.volatility_window = 3 →
      (feedPrice t 102).price_history = [101, 99, 102] := by
    intro t h1 h2
    norm_num [feedPrice, updateVolatility, h1, h2]
  have hv0a : volState0.price_history = [] := by simp [volState0]
  have hv0b : volState0.volatility_window = 3 := by simp [volState0]
  have hs1 := step1 volState0 hv0a hv0b
  have hs2 := step2 _ hs1.1 hs1.2.1
  have hs3 := step3 _ hs2.1 hs2.2
  have hs4 := step4 _ hs3.1 hs3.2.1
  refine ⟨?_, ?_, ?_, ?_, hs3.1, ?_, ?_, ?_, hs4⟩
  · intro hlen
    have hlen1 : (s.price_history ++ [p]).length = s.price_history.length + 1 := by
      simp
    simp only [feedPrice, updateVolatility]
    split_ifs with hw hl hl <;> simp [List.length_tail, hlen1] <;> omega
  · intro hlen hne
    have hw : s.volatility_window < (s.price_history ++ [p]).length := by
      simp [hlen]
    have htail : (s.price_history ++ [p]).tail = s.price_history.tail ++ [p] := by
      rcases hh : s.price_history with _ | ⟨x, xs⟩
      · exact absurd hh hne
      · simp
    simp only [feedPrice, updateVolatility]
    rw [if_pos hw, htail]
    split_ifs
    all_goals rfl
  · intro hsmall
    simp only [feedPrice, updateVolatility] at hsmall ⊢
    split_ifs at hsmall ⊢ with hw hl hl <;> simp_all <;> omega
  · intro hbig
    simp only [feedPrice, updateVolatility] at hbig ⊢
    split_ifs at hbig ⊢ with hw hl hl <;> simp_all <;> omega
  · norm_num [returnsOf]
  · norm_num [returnsOf]
  · rw [hs3.2.2]
    norm_num [returnsOf]

/-- Witness for C5: the window bound applied at the concrete `volState0`. -/
theorem updateVolatility_props_witness :
    volState0.price_history.length ≤ volState0.volatility_window ∧
    (feedPrice volState0 100).price_history.length ≤ volState0.volatility_window :=
  ⟨by simp [volState0, baseState],
   (updateVolatility_props volState0 100).1 (by simp [volState0, baseState])⟩

/-- C7 (amended): starting from a healthy state, a reset runs in a tick
exactly when the rate-limited probe ran and failed (so between two consecutive
failing evaluations exactly one reset executes); a failing probe sets
`is_healthy = false` without throwing, and the tick ends healthy again.
However `reset` zeroes `last_health_check` (last conjuncts), so after a reset
the next tick evaluates immediately: the probe is spaced by
`health_check_interval` only when no reset intervenes. -/
theorem healthCheck_reset_amended (s : MMState) (t : ℤ) (ok : Bool) (newPos : ℝ)
    (hh : s.is_healthy = true) :
    ((healthPhase s t ok newPos).2.2 = true ↔
      ((healthPhase s t ok newPos).2.1 = true ∧ ok = false)) ∧
    ((healthPhase s t ok newPos).2.1 = true → ok = false →
      (healthCheck s t ok).is_healthy = false) ∧
    (healthPhase s t ok newPos).1.is_healthy = true ∧
    ((healthPhase s t ok newPos).2.2 = true →
      (healthPhase s t ok newPos).1.last_health_check = 0) ∧
    ((healthPhase s t ok newPos).2.2 = false →
      (healthPhase s t ok newPos).2.1 = true →
      (healthPhase s t ok newPos).1.last_health_check = t) := by
  by_cases hc : s.health_check_interval ≤ t - s.last_health_check
  · cases ok <;> simp [healthPhase, healthCheck, resetState, hc, hh]
  · cases ok <;> simp [healthPhase, healthCheck, resetState, hc, hh]

/-- Witness for C7 (amended) at `baseState`, `t = 100`, failing probe. -/
theorem healthCheck_reset_amended_witness :
    baseState.is_healthy = true ∧
    (((healthPhase baseState 100 false 0).2.2 = true ↔
      ((healthPhase baseState 100 false 0).2.1 = true ∧ false = false)) ∧
    ((healthPhase baseState 100 false 0).2.1 = true → false = false →
      (healthCheck baseState 100 false).is_healthy = false) ∧
    (healthPhase baseState 100 false 0).1.is_healthy = true ∧
    ((healthPhase baseState 100 false 0).2.2 = true →
      (healthPhase baseState 100 false 0).1.last_health_check = 0) ∧
    ((healthPhase baseState 100 false 0).2.2 = false →
      (healthPhase baseState 100 false 0).2.1 = true →
      (healthPhase baseState 100 false 0).1.last_health_check = 100)) :=
  ⟨by simp [baseState],
   healthCheck_reset_amended baseState 100 false 0 (by simp [baseState])⟩

/-- C7 counterexample: with `health_check_interval = 60` the probe runs and
fails at `t = 100`, triggering a reset; because the reset zeroes
`last_health_check`, the probe runs and a second reset fires already at
`t = 101` — two evaluations and two resets one second apart, refuting
"at most once per `health_check_interval`" and "not re-triggered every
tick". -/
theorem healthCheck_rate_limit_counterexample :
    (healthPhase baseState 100 false 0).2.1 = true ∧
    (healthPhase baseState 100 false 0).2.2 = true ∧
    (healthPhase (healthPhase baseState 100 false 0).1 101 false 0).2.1 = true ∧
    (healthPhase (healthPhase baseState 100 false 0).1 101 false 0).2.2 = true ∧
    (101 : ℤ) - 100 < baseState.health_check_interval := by
  have step : ∀ (u : MMState) (tt : ℤ), u.is_healthy = true → u.last_health_check = 0 →
      u.health_check_interval = 60 → (60 : ℤ) ≤ tt →
      (healthPhase u tt false 0).2.1 = true ∧
      (healthPhase u tt false 0).2.2 = true ∧
      (healthPhase u tt false 0).1.last_health_check = 0 ∧
      (healthPhase u tt false 0).1.health_check_interval = 60 ∧
      (healthPhase u tt false 0).1.is_healthy = true := by
    intro u tt h1 h2 h3 h4
    simp [healthPhase, healthCheck, resetState, h2, h3, h4]
  have hb1 : baseState.is_healthy = true := by simp [baseState]
  have hb2 : baseState.last_health_check = 0 := by simp [baseState]
  have hb3 : baseState.health_check_interval = 60 := by simp [baseState]
  have r1 := step baseState 100 hb1 hb2 hb3 (by norm_num)
  have r2 := step (healthPhase baseState 100 false 0).1 101 r1.2.2.2.2 r1.2.2.1
    r1.2.2.2.1 (by norm_num)
  exact ⟨r1.1, r1.2.1, r2.1, r2.2.1, by rw [hb3]; norm_num⟩

theorem placeOrdersLoop_keys :
    ∀ (quotes : List (String × ℝ × ℝ)) (results : List (Option (ℕ × Option ℕ)))
      (m : List (ℕ × OrderParams)),
      results.length = quotes.length →
      (m.map Prod.fst ++ successIds results).Nodup →
      (placeOrdersLoop m quotes results).map Prod.fst =
        m.map Prod.fst ++ successIds results := by
  intro quotes
  induction quotes with
  | nil =>
    intro results m hlen hnd
    have hres : results = [] := List.length_eq_zero.1 (by simpa using hlen)
    subst hres
    simp [placeOrdersLoop, successIds]
  | cons q qs ih =>
    intro results m hlen hnd
    cases results with
    | nil => simp at hlen
    | cons r rs =>
      have hlen2 : rs.length = qs.length := by simpa using hlen
      match r with
      | none =>
        have hs : successIds (none :: rs) = successIds rs := by simp [successIds]
        rw [hs] at hnd ⊢
        exact ih rs m hlen2 hnd
      | some (tx, none) =>
        have hs : successIds (some (tx, none) :: rs) = successIds rs := by
          simp [successIds]
        rw [hs] at hnd ⊢
        exact ih rs m hlen2 hnd
      | some (tx, some k) =>
        have hs : successIds (some (tx, some k) :: rs) = k :: successIds rs := by
          simp [successIds]
        rw [hs] at hnd ⊢
        have hknotin : k ∉ m.map Prod.fst := by
          have hdj := List.disjoint_of_nodup_append hnd
          intro hk
          exact hdj hk (by simp)
        have hins : dictInsert m k (buildOrderParams q) =
            m ++ [(k, buildOrderParams q)] := by
          unfold dictInsert
          rw [if_neg]
          intro hc
          rcases List.any_eq_true.1 hc with ⟨e, he, heq⟩
          exact hknotin (List.mem_map.2 ⟨e, he, by simpa using heq⟩)
        have hstep : placeOrdersLoop m (q :: qs) (some (tx, some k) :: rs) =
            placeOrdersLoop (m ++ [(k, buildOrderParams q)]) qs rs := by
          rw [← hins]
          rfl
        rw [hstep]
        have hkeys : (m ++ [(k, buildOrderParams q)]).map Prod.fst =
            m.map Prod.fst ++ [k] := by simp
        have hnd2 : ((m ++ [(k, buildOrderParams q)]).map Prod.fst ++
            successIds rs).Nodup := by
          rw [hkeys]
          simpa [List.append_assoc] using hnd
        rw [ih rs _ hlen2 hnd2, hkeys]
        simp

/-- C8: after the cancel-all pass, the submission loop of `place_orders`
keeps going past failed submissions, records exactly the identified successes
(in order), and the tracked order count equals the number of identified
successes; in the demo 1-of-4 failure the count is 3. -/
theorem placeOrders_tracks_successes (s : MMState)
    (quotes : List (String × ℝ × ℝ)) (results : List (Option (ℕ × Option ℕ)))
    (hlen : results.length = quotes.length)
    (hnd : (successIds results).Nodup) :
    (placeOrdersLoop (cancelAllOrders s).current_orders quotes results).map Prod.fst =
      successIds results ∧
    (placeOrdersLoop (cancelAllOrders s).current_orders quotes results).length =
      (successIds results).length ∧
    (∀ (hour : ℕ) (quotes₂ : List (String × ℝ × ℝ)),
      generateQuotes (cancelAllOrders s) hour = Except.ok quotes₂ →
      results.length = quotes₂.length →
      ∃ s₂, placeOrders s results hour = Except.ok s₂ ∧
        s₂.current_orders.map Prod.fst = successIds results) ∧
    (placeOrdersLoop (cancelAllOrders baseState).current_orders
      demoQuotes demoResults).length = 3 ∧
    successIds demoResults = [11, 12, 13] := by
  have hco : (cancelAllOrders s).current_orders = ([] : List (ℕ × OrderParams)) := rfl
  have hkeys := placeOrdersLoop_keys quotes results [] hlen (by simpa using hnd)
  have hfst : (placeOrdersLoop ([] : List (ℕ × OrderParams)) quotes results).map
      Prod.fst = successIds results := by simpa using hkeys
  refine ⟨by rw [hco]; exact hfst, ?_, ?_, ?_, by simp [successIds, demoResults]⟩
  · rw [hco]
    have hlenm := congrArg List.length hfst
    simpa using hlenm
  · intro hour quotes₂ hq hlen₂
    have hrun : placeOrders s results hour = Except.ok
        { cancelAllOrders s with
          current_orders :=
            placeOrdersLoop (cancelAllOrders s).current_orders quotes₂ results } := by
      simp only [placeOrders]
      rw [hq]
    refine ⟨_, hrun, ?_⟩
    have hkeys₂ := placeOrdersLoop_keys quotes₂ results [] hlen₂ (by simpa using hnd)
    simp only [hco]
    simpa using hkeys₂
  · norm_num [placeOrdersLoop, dictInsert, cancelAllOrders, demoQuotes, demoResults]

/-- Witness for C8 at the demo quotes and the 1-of-4 failing responses. -/
theorem placeOrders_tracks_successes_witness :
    demoResults.length = demoQuotes.length ∧ (successIds demoResults).Nodup ∧
    (placeOrdersLoop (cancelAllOrders baseState).current_orders
      demoQuotes demoResults).map Prod.fst = successIds demoResults :=
  ⟨by simp [demoResults, demoQuotes], by simp [successIds, demoResults],
   (placeOrders_tracks_successes baseState demoQuotes demoResults
     (by simp [demoResults, demoQuotes]) (by simp [successIds, demoResults])).1⟩

theorem pricesFn_bid_forced (s : MMState) (b a : ℝ) (hour : ℕ)
    (hb : 1 ≤ b) (x y : ℝ × ℝ) (xs ys : List (ℝ × ℝ))
    (hbids : s.order_book.bids = x :: xs) (hasks : s.order_book.asks = y :: ys) :
    pricesFn s b a hour = Except.ok
      (some (linspace x.1 (x.1 - adjustedSpread s hour * s.max_orders) s.max_orders),
        none) := by
  unfold pricesFn
  rw [hbids, hasks]
  simp only [if_pos hb]

theorem pricesFn_ask_forced (s : MMState) (b a : ℝ) (hour : ℕ)
    (hb : b < 1) (ha : 1 ≤ a) (x y : ℝ × ℝ) (xs ys : List (ℝ × ℝ))
    (hbids : s.order_book.bids = x :: xs) (hasks : s.order_book.asks = y :: ys) :
    pricesFn s b a hour = Except.ok
      (none,
        some (linspace y.1 (y.1 + adjustedSpread s hour * s.max_orders) s.max_orders)) := by
  unfold pricesFn
  rw [hbids, hasks]
  simp only [if_neg (not_le.2 hb), if_pos ha]

theorem linspace_getD (p q : ℝ) (n i : ℕ) (hi : i < n) :
    (linspace p q n).getD i 0 = p + (q - p) * i / ((n : ℝ) - 1) := by
  unfold linspace
  rw [List.getD_eq_getElem?_getD, List.getElem?_map, List.getElem?_range hi]
  rfl

theorem skewPair_cs9 : skewPair cs9 = (0, 1) := by
  have ht0 : (0 : ℝ) ≤ Real.tanh (12 / 5) := tanh_nonneg (by norm_num)
  have ht1 : Real.tanh (12 / 5) ≤ 1 := (tanh_lt_one _).le
  have hgeq : generateSkew cs9 = 0.5 * -Real.tanh (12 / 5) := by
    simp only [generateSkew, cs9, baseState, baseConfig, bookVolume]
    norm_num
  have hr1 : round2 (generateSkew cs9) ≤ 0 := round2_nonpos (by rw [hgeq]; linarith)
  have hr2 : -(1 / 2) ≤ round2 (generateSkew cs9) :=
    neg_half_le_round2 (by rw [hgeq]; linarith)
  have hd : skewDelta cs9 = 120 := by norm_num [skewDelta, cs9, baseState, baseConfig]
  have hie : cs9.inventory_extreme = 50 := by norm_num [cs9, baseState]
  have hmin : min (round2 (generateSkew cs9)) 1 = round2 (generateSkew cs9) :=
    min_eq_left (by linarith)
  have hmax : max 0 (round2 (generateSkew cs9)) = 0 := max_eq_left hr1
  simp only [skewPair, skewBeforeDegenerate, hd, hie, hmin, hmax]
  norm_num

theorem adjustedSpread_cs9 : adjustedSpread cs9 3 = 5 := by
  unfold adjustedSpread
  rw [depthFactor_nonempty cs9 (by simp [cs9, baseState]) (by simp [cs9, baseState])]
  norm_num [cs9, baseState, baseConfig, top5Volume, timeFactor, min_def, max_def]

theorem sizesFn_cs9 : sizesFn cs9 0 1 =
    (none, some (List.replicate 8 (median2 1 5))) := by
  unfold sizesFn
  rw [if_neg (by norm_num), if_pos le_rfl]
  norm_num [cs9, baseState, baseConfig, median2]

/-- C9 (amended): when one side has skew at the forced extreme (bid checked
first), `_prices` emits a one-sided `np.linspace` ladder of `max_orders`
evenly spaced prices from the best price to best ± `spread * max_orders` —
consecutive increments are `spread * max_orders / (max_orders − 1)`, not
`spread` — and nothing on the other side; in Scenario B (`position = 120`,
`target = 0`, `max_position_size = 100`, `inventory_extreme = 50`) the
composed skew is `(0, 1)` and the quotes of that tick are eight asks, no bids. -/
theorem one_sided_ladder (s : MMState) (b a : ℝ) (hour : ℕ) :
    (s.order_book.bids ≠ [] → s.order_book.asks ≠ [] → 1 ≤ b →
      pricesFn s b a hour = Except.ok
        (some (linspace (s.order_book.bids.headD (0, 0)).1
          ((s.order_book.bids.headD (0, 0)).1 - adjustedSpread s hour * s.max_orders)
          s.max_orders), none)) ∧
    (s.order_book.bids ≠ [] → s.order_book.asks ≠ [] → b < 1 → 1 ≤ a →
      pricesFn s b a hour = Except.ok
        (none, some (linspace (s.order_book.asks.headD (0, 0)).1
          ((s.order_book.asks.headD (0, 0)).1 + adjustedSpread s hour * s.max_orders)
          s.max_orders))) ∧
    (∀ (x y : ℝ) (i : ℕ), i + 1 < s.max_orders →
      (linspace x (x + y * s.max_orders) s.max_orders).getD (i + 1) 0 -
        (linspace x (x + y * s.max_orders) s.max_orders).getD i 0 =
        y * s.max_orders / ((s.max_orders : ℝ) - 1)) ∧
    skewPair cs9 = (0, 1) ∧
    (∃ qs, generateQuotes cs9 3 = Except.ok qs ∧ qs.length = 8 ∧
      ∀ q ∈ qs, q.1 = "Sell") := by
  refine ⟨?_, ?_, ?_, skewPair_cs9, ?_⟩
  · intro hbne hane hb
    rcases List.exists_cons_of_ne_nil hbne with ⟨x, xs, hbids⟩
    rcases List.exists_cons_of_ne_nil hane with ⟨y, ys, hasks⟩
    rw [pricesFn_bid_forced s b a hour hb x y xs ys hbids hasks, hbids]
    rfl
  · intro hbne hane hb ha
    rcases List.exists_cons_of_ne_nil hbne with ⟨x, xs, hbids⟩
    rcases List.exists_cons_of_ne_nil hane with ⟨y, ys, hasks⟩
    rw [pricesFn_ask_forced s b a hour hb ha x y xs ys hbids hasks, hasks]
    rfl
  · intro x y i hi
    rw [linspace_getD x (x + y * s.max_orders) s.max_orders (i + 1) hi,
      linspace_getD x (x + y * s.max_orders) s.max_orders i (by omega)]
    push_cast
    ring
  · have hbids : cs9.order_book.bids = (99, 10) :: [(98, 10), (97, 10), (96, 10), (95, 10)] := by
      simp [cs9, baseState]
    have hasks : cs9.order_book.asks = (101, 10) :: [(102, 10), (103, 10), (104, 10), (105, 10)] := by
      simp [cs9, baseState]
    have hpr := pricesFn_ask_forced cs9 0 1 3 (by norm_num) le_rfl _ _ _ _ hbids hasks
    have hmo : cs9.max_orders = 8 := by simp [cs9, baseState]
    refine ⟨((linspace 101 (101 + adjustedSpread cs9 3 * 8) 8).zip
      (List.replicate 8 (median2 1 5))).map (fun q => ("Sell", q.1, q.2)), ?_, ?_, ?_⟩
    · simp only [generateQuotes, skewPair_cs9]
      rw [hpr, sizesFn_cs9, hmo]
      simp
    · simp [linspace]
    · intro q hq
      rcases List.mem_map.1 hq with ⟨e, _, he⟩
      rw [← he]

/-- Witness for C9 (amended): the forced-ask branch applied at `cs9` with the
skew pair `(0, 1)`. -/
theorem one_sided_ladder_witness :
    cs9.order_book.bids ≠ [] ∧ cs9.order_book.asks ≠ [] ∧ (0 : ℝ) < 1 ∧ (1 : ℝ) ≤ 1 ∧
    pricesFn cs9 0 1 3 = Except.ok
      (none, some (linspace (cs9.order_book.asks.headD (0, 0)).1
        ((cs9.order_book.asks.headD (0, 0)).1 + adjustedSpread cs9 3 * cs9.max_orders)
        cs9.max_orders)) :=
  ⟨by simp [cs9, baseState], by simp [cs9, baseState], by norm_num, le_rfl,
   (one_sided_ladder cs9 0 1 3).2.1 (by simp [cs9, baseState])
     (by simp [cs9, baseState]) (by norm_num) le_rfl⟩

/-- C9 counterexample: at `cs9` the adjusted spread is `5` and the forced-ask
ladder over 8 orders steps by `40/7`, not by the claimed `spread = 5`. -/
theorem one_sided_ladder_counterexample :
    pricesFn cs9 0 1 3 = Except.ok (none, some (linspace 101 141 8)) ∧
    (linspace 101 141 8).getD 0 0 = 101 ∧
    (linspace 101 141 8).getD 1 0 = 101 + 40 / 7 ∧
    (101 + 40 / 7 : ℝ) ≠ 101 + 5 := by
  have hbids : cs9.order_book.bids = (99, 10) :: [(98, 10), (97, 10), (96, 10), (95, 10)] := by
    simp [cs9, baseState]
  have hasks : cs9.order_book.asks = (101, 10) :: [(102, 10), (103, 10), (104, 10), (105, 10)] := by
    simp [cs9, baseState]
  have hmo : cs9.max_orders = 8 := by simp [cs9, baseState]
  refine ⟨?_, ?_, ?_, by norm_num⟩
  · rw [pricesFn_ask_forced cs9 0 1 3 (by norm_num) le_rfl _ _ _ _ hbids hasks,
      adjustedSpread_cs9, hmo]
    norm_num
  · rw [linspace_getD 101 141 8 0 (by norm_num)]
    norm_num
  · rw [linspace_getD 101 141 8 1 (by norm_num)]
    norm_num

end NovaAlgo
